import Mathlib

/-!
Verification of the titulky.com subtitle-addon core (server.js, lib/titulkyClient.js).

The JavaScript source is shallowly embedded: pure string/byte manipulation
functions become Lean functions over `List Char` / `List Nat`; the stateful
`/sub` request handler becomes a small-step machine over an explicit state
type.  JS strings are modelled as Lean `String` / `List Char` (the claims only
exercise code points where JS UTF-16 semantics and Lean code-point semantics
agree); JS numbers used as timestamps are modelled as `Int`.
-/

/-! ## Generic character/string helpers (JS semantics) -/

/-- Left brace character (written via its code point). -/
def lbChar : Char := Char.ofNat 123

/-- Right brace character (written via its code point). -/
def rbChar : Char := Char.ofNat 125

/-- The whitespace class of JS `\s` and `String.prototype.trim`, restricted to
the code points that can actually occur in the claims' inputs (ASCII
whitespace plus NBSP and BOM). -/
def jsIsSpace (c : Char) : Bool :=
  c = ' ' || c = '\t' || c = '\n' || c = '\x0b' || c = '\x0c' || c = '\r' ||
  c = Char.ofNat 0xA0 || c = Char.ofNat 0xFEFF

/-- JS `String.prototype.trim` on a character list. -/
def jsTrim (l : List Char) : List Char :=
  ((l.dropWhile jsIsSpace).reverse.dropWhile jsIsSpace).reverse

/-- JS `String.prototype.trim` on a `String`. -/
def jsTrimS (s : String) : String := String.mk (jsTrim s.data)

/-- ASCII lower-casing (JS `toLowerCase`; the claims only exercise ASCII). -/
def jsToLower (c : Char) : Char :=
  if 'A' ≤ c && c ≤ 'Z' then Char.ofNat (c.toNat + 32) else c

/-- Lower-case a character list. -/
def lowerL (l : List Char) : List Char := l.map jsToLower

/-- Case-insensitive prefix test (for JS regexes with the `i` flag anchored at
the start, e.g. `/^Format:/i`). -/
def startsWithCI (pat : String) (l : List Char) : Bool :=
  List.isPrefixOf (lowerL pat.data) (lowerL l)

/-- Drop a case-insensitive literal prefix, or `none` when it is not there. -/
def dropLitCI (pat : String) (l : List Char) : Option (List Char) :=
  if startsWithCI pat l then some (l.drop pat.data.length) else none

/-- Split a character list at every occurrence of a single character
(JS `split(',')` / `split('\n')` semantics for one-character separators). -/
def splitOnC (sep : Char) : List Char → List (List Char)
  | [] => [[]]
  | c :: rest =>
    let r := splitOnC sep rest
    if c = sep then [] :: r
    else
      match r with
      | [] => [[c]]
      | g :: gs => (c :: g) :: gs

/-- Join character lists with a separator (JS `Array.prototype.join`). -/
def joinWith (sep : List Char) : List (List Char) → List Char
  | [] => []
  | [x] => x
  | x :: xs => x ++ sep ++ joinWith sep xs

/-- Global literal replacement, scanning left to right without overlap
(JS `String.prototype.replace(/lit/g, rep)` for a literal pattern), with
explicit fuel (one unit per consumed position). -/
def replaceLitF (pat rep : List Char) : Nat → List Char → List Char
  | 0, l => l
  | _ + 1, [] => []
  | n + 1, c :: cs =>
    if pat ≠ [] && List.isPrefixOf pat (c :: cs) then
      rep ++ replaceLitF pat rep n ((c :: cs).drop pat.length)
    else c :: replaceLitF pat rep n cs

/-- Global literal replacement with enough fuel for the whole input. -/
def replaceLit (pat rep l : List Char) : List Char :=
  replaceLitF pat rep l.length l

/-- CRLF normalisation (JS `replace(/\r\n/g, '\n')`). -/
def replaceCrLf : List Char → List Char
  | '\r' :: '\n' :: rest => '\n' :: replaceCrLf rest
  | c :: rest => c :: replaceCrLf rest
  | [] => []

/-- Does the list start with (at least) four ASCII digits?  (JS `/^\d{4}/`.) -/
def startsWith4Digits : List Char → Bool
  | a :: b :: c :: d :: _ => a.isDigit && b.isDigit && c.isDigit && d.isDigit
  | _ => false

/-! ## SRT → VTT conversion (server.js, `srtToVtt`) -/

/-- Try to match the SRT timestamp pattern `\d\d:\d\d:\d\d,\d\d\d` at the head
of the list; on success return the rewritten text (comma replaced by a dot)
together with the remaining input. -/
def srtTsAt : List Char → Option (List Char × List Char)
  | a :: b :: c1 :: c :: d :: c2 :: e :: f :: c3 :: g :: h :: i :: rest =>
    if a.isDigit && b.isDigit && c1 = ':' && c.isDigit && d.isDigit &&
       c2 = ':' && e.isDigit && f.isDigit && c3 = ',' &&
       g.isDigit && h.isDigit && i.isDigit then
      some ([a, b, ':', c, d, ':', e, f, '.', g, h, i], rest)
    else none
  | _ => none

/-- Rewrite every SRT timestamp `HH:MM:SS,mmm` to `HH:MM:SS.mmm`
(JS `replace(/(\d{2}:\d{2}:\d{2}),(\d{3})/g, '$1.$2')`), with fuel. -/
def srtTimeFixF : Nat → List Char → List Char
  | 0, l => l
  | _ + 1, [] => []
  | n + 1, c :: cs =>
    match srtTsAt (c :: cs) with
    | some (out, rest) => out ++ srtTimeFixF n rest
    | none => c :: srtTimeFixF n cs

/-- Rewrite every SRT timestamp with enough fuel for the whole input. -/
def srtTimeFix (l : List Char) : List Char := srtTimeFixF l.length l

/-- The function `srtToVtt` from server.js: normalise CRLF to LF, rewrite `,` timestamps to
`.`, trim, and prefix the `WEBVTT` header plus a trailing newline. -/
def srtToVtt (srtContent : String) : String :=
  "WEBVTT\n\n" ++ String.mk (jsTrim (srtTimeFix (replaceCrLf srtContent.data))) ++ "\n"

/-! ## Title matching (server.js, `isExactTitleMatch`) -/

/-- Is `c` a lower-case ASCII letter or digit? -/
def isLowerAlnum (c : Char) : Bool :=
  ('a' ≤ c && c ≤ 'z') || ('0' ≤ c && c ≤ '9')

/-- Normalisation used by `isExactTitleMatch`: lower-case, drop everything
outside `[a-z0-9\s]`, trim. -/
def normalizeTitle (s : String) : List Char :=
  jsTrim ((lowerL s.data).filter fun c => isLowerAlnum c || jsIsSpace c)

/-- Literal lower-case prefix test. -/
def startsWithLit (s : String) (l : List Char) : Bool :=
  List.isPrefixOf s.data l

/-- The release-context token test of `isExactTitleMatch`
(JS `/^(s\d|season|720|1080|2160|bluray|brrip|web|dvd|hdtv|x26)/i`; the input
is already lower-cased by the normalisation). -/
def releaseTokenStart (l : List Char) : Bool :=
  (match l with
   | 's' :: c :: _ => c.isDigit
   | _ => false) ||
  startsWithLit "season" l || startsWithLit "720" l || startsWithLit "1080" l ||
  startsWithLit "2160" l || startsWithLit "bluray" l || startsWithLit "brrip" l ||
  startsWithLit "web" l || startsWithLit "dvd" l || startsWithLit "hdtv" l ||
  startsWithLit "x26" l

/-- The function `isExactTitleMatch` from server.js.  The leading test mirrors the JS falsy
guard `if (!movieName || !subText) return false` (for strings, falsy means
empty). -/
def isExactTitleMatch (movieName subText : String) : Bool :=
  if movieName = "" || subText = "" then false
  else
    let movie := normalizeTitle movieName
    let sub := normalizeTitle subText
    if sub == movie then true
    else if List.isPrefixOf movie sub then
      let after := jsTrim (sub.drop movie.length)
      if after.isEmpty || startsWith4Digits after || releaseTokenStart after then
        true
      else false
    else false

/-- Spec-side title-match predicate, transcribed from the claim's words: after
normalising both to lowercase alphanumerics and spaces, the candidate equals
the target, or starts with the target followed by nothing, a 4-digit year, or
a recognised release-context token. -/
def titleMatchSpec (movieName subText : String) : Bool :=
  let movie := normalizeTitle movieName
  let sub := normalizeTitle subText
  sub == movie ||
  (List.isPrefixOf movie sub &&
    (let after := jsTrim (sub.drop movie.length)
     after.isEmpty || startsWith4Digits after || releaseTokenStart after))

/-! ## Search cascade (lib/titulkyClient.js, `search`) -/

/-- The candidate loop of `TitulkyClient.search`: try each candidate in order,
skipping empty or too-short ones, and return the first non-empty result set.
`q` abstracts `_searchStandard` (issue the query and parse the listing). -/
def searchLoop (q : String → List α) : List String → List α
  | [] => []
  | t :: ts =>
    if t = "" || t.length < 2 then searchLoop q ts
    else if (q t).isEmpty then searchLoop q ts
    else q t

/-- The method `TitulkyClient.search`: one `login()` call up front (first component: the
number of login/ensureAuthenticated invocations — `_searchStandard` performs
none), then the candidate cascade. -/
def search (q : String → List α) (titles : List String) : Nat × List α :=
  (1, searchLoop q titles)

/-- Spec-side description of the cascade: among the candidates of length ≥ 2,
taken in order, the first whose query result is non-empty wins; otherwise the
empty list. -/
def searchSpec (q : String → List α) (titles : List String) : List α :=
  ((((titles.filter fun t => 2 ≤ t.length).map q).find? fun r => !r.isEmpty)).getD []

/-! ## Login freshness (lib/titulkyClient.js, `login`) -/

/-- Session state relevant to `login()`: the `loggedIn` flag, the
`lastLoginTime` timestamp (ms), and whether a `loginPromise` is in flight. -/
structure LoginState where
  loggedIn : Bool
  lastLoginTime : Int
  inFlight : Bool
deriving DecidableEq

/-- What a call to `login()` does. `skipFresh` = return `true` with no network
login; `joinInFlight` = return the existing `loginPromise` (await the same
attempt); `newAttempt` = start `_doLogin()` (a forced re-authentication). -/
inductive LoginAction where
  | skipFresh
  | joinInFlight
  | newAttempt
deriving DecidableEq

/-- The freshness test of `login()`:
`this.loggedIn && Date.now() - this.lastLoginTime < 30 * 60 * 1000`. -/
def sessionFresh (s : LoginState) (now : Int) : Bool :=
  s.loggedIn && now - s.lastLoginTime < 30 * 60 * 1000

/-- The branch structure of `login()` as a decision function. -/
def loginAction (s : LoginState) (now : Int) : LoginAction :=
  if sessionFresh s now then .skipFresh
  else if s.inFlight then .joinInFlight
  else .newAttempt

/-! ## The `/sub` handler's response on a failed download (server.js) -/

/-- A subtitle file extracted from the downloaded archive. -/
structure ExtractedFile where
  filename : String
  content : String
deriving DecidableEq

/-- An HTTP response of the `/sub` route: a 200 with a content type and body,
or an error status. -/
inductive SubResponse where
  | ok (contentType : String) (body : String)
  | httpError (code : Nat) (msg : String)
deriving DecidableEq

/-- The fixed "limit reached" cue body, exactly as in server.js
(`limitMsg`), per serving context. -/
def limitMessage (isOmni : Bool) : String :=
  if isOmni then
    "WEBVTT\n\n1\n00:00:01.000 --> 00:00:30.000\nPřekročili jste denní limit stažení titulků z Titulky.com. Stáhněte titulky které jsou v cachi (označené ✅) nebo počkejte na reset limitu do dalšího dne.\n"
  else
    "1\n00:00:01,000 --> 00:00:30,000\nPřekročili jste denní limit stažení titulků z Titulky.com. Stáhněte titulky které jsou v cachi (označené ✅) nebo počkejte na reset limitu do dalšího dne.\n"

/-- The response sent on the limit path (`res.setHeader('Content-Type', …)`
then `res.send(limitMsg)` — an HTTP 200, not an error). -/
def limitResponse (isOmni : Bool) : SubResponse :=
  .ok (if isOmni then "text/vtt; charset=utf-8" else "text/plain; charset=utf-8")
    (limitMessage isOmni)

/-- The `sendSub` helper of the `/sub` route: in the Omni context convert to
VTT and serve inline as `text/vtt`, otherwise serve the text as a plain
attachment.  (Headers other than the content type are elided; `content` is
already UTF-8 text.) -/
def sendSub (isOmni : Bool) (content : String) : SubResponse :=
  if isOmni then .ok "text/vtt; charset=utf-8" (srtToVtt content)
  else .ok "text/plain; charset=utf-8" content

/-- The continuation of the `/sub` handler after `client.downloadSubtitle`
returns: `if (!files || files.length === 0)` serve the fixed limit cue, else
serve the first extracted file. -/
def afterDownload (isOmni : Bool) (files : Option (List ExtractedFile)) : SubResponse :=
  match files with
  | none => limitResponse isOmni
  | some [] => limitResponse isOmni
  | some (f :: _) => sendSub isOmni f.content

/-! ## Subtitle listing: the 10-result cap (server.js, subtitles route) -/

/-- The response-list construction of the subtitles route:
`scoredResults.slice(0, 10).map(site)` builds the site-derived entries, then
each custom subtitle is `unshift`ed (prepended) in iteration order. -/
def buildSubtitleEntries (site : α → γ) (cust : β → γ)
    (scored : List α) (custom : List β) : List γ :=
  custom.foldl (fun acc cs => cust cs :: acc) (((scored.take 10).map site))

/-! ## Encoding detection (server.js, `ensureUtf8` / `isValidUtf8`)

Bytes are `List Nat` (each < 256); JS strings are modelled as lists of UTF-16
code units (`List Nat`), which is what `String.prototype.length` and the
character-class regexes of `isValidUtf8` operate on. -/

/-- Is `b` a UTF-8 continuation byte? -/
def isContByte (b : Nat) : Bool := 0x80 ≤ b && b ≤ 0xBF

/-- UTF-8 decoding with U+FFFD substitution (the WHATWG policy used by Node's
`buffer.toString('utf-8')`), producing code points; fuelled (one unit per
step, each step consumes at least one byte). -/
def utf8DecodeF : Nat → List Nat → List Nat
  | 0, _ => []
  | _ + 1, [] => []
  | n + 1, b :: bs =>
    if b < 0x80 then b :: utf8DecodeF n bs
    else if 0xC2 ≤ b && b ≤ 0xDF then
      match bs with
      | b2 :: rest =>
        if isContByte b2 then ((b - 0xC0) * 64 + (b2 - 0x80)) :: utf8DecodeF n rest
        else 0xFFFD :: utf8DecodeF n bs
      | [] => [0xFFFD]
    else if 0xE0 ≤ b && b ≤ 0xEF then
      let lo := if b = 0xE0 then 0xA0 else 0x80
      let hi := if b = 0xED then 0x9F else 0xBF
      match bs with
      | b2 :: rest2 =>
        if lo ≤ b2 && b2 ≤ hi then
          match rest2 with
          | b3 :: rest3 =>
            if isContByte b3 then
              ((b - 0xE0) * 4096 + (b2 - 0x80) * 64 + (b3 - 0x80)) :: utf8DecodeF n rest3
            else 0xFFFD :: utf8DecodeF n rest2
          | [] => [0xFFFD]
        else 0xFFFD :: utf8DecodeF n bs
      | [] => [0xFFFD]
    else if 0xF0 ≤ b && b ≤ 0xF4 then
      let lo := if b = 0xF0 then 0x90 else 0x80
      let hi := if b = 0xF4 then 0x8F else 0xBF
      match bs with
      | b2 :: rest2 =>
        if lo ≤ b2 && b2 ≤ hi then
          match rest2 with
          | b3 :: rest3 =>
            if isContByte b3 then
              match rest3 with
              | b4 :: rest4 =>
                if isContByte b4 then
                  ((b - 0xF0) * 0x40000 + (b2 - 0x80) * 4096 +
                    (b3 - 0x80) * 64 + (b4 - 0x80)) :: utf8DecodeF n rest4
                else 0xFFFD :: utf8DecodeF n rest3
              | [] => [0xFFFD]
            else 0xFFFD :: utf8DecodeF n rest2
          | [] => [0xFFFD]
        else 0xFFFD :: utf8DecodeF n bs
      | [] => [0xFFFD]
    else 0xFFFD :: utf8DecodeF n bs

/-- UTF-8 decoding of a whole byte list to code points. -/
def utf8Decode (bytes : List Nat) : List Nat := utf8DecodeF bytes.length bytes

/-- Code points to UTF-16 code units (JS string representation). -/
def toUtf16 (cps : List Nat) : List Nat :=
  cps.flatMap fun cp =>
    if cp < 0x10000 then [cp]
    else [0xD800 + (cp - 0x10000) / 0x400, 0xDC00 + (cp - 0x10000) % 0x400]

/-- The JS string (as code units) produced by `buffer.toString('utf-8')`. -/
def utf8Units (bytes : List Nat) : List Nat := toUtf16 (utf8Decode bytes)

/-- Count of non-overlapping matches of `/[\xC0-\xC3][\x80-\xBF]/g` in a JS
string (the "suspicious" mis-decoded CP1250 pattern of `isValidUtf8`);
fuelled. -/
def countSuspF : Nat → List Nat → Nat
  | 0, _ => 0
  | _ + 1, [] => 0
  | _ + 1, [_] => 0
  | n + 1, c1 :: c2 :: rest =>
    if (0xC0 ≤ c1 && c1 ≤ 0xC3) && (0x80 ≤ c2 && c2 ≤ 0xBF) then
      1 + countSuspF n rest
    else countSuspF n (c2 :: rest)

/-- Count of suspicious two-character matches in a JS string. -/
def countSusp (units : List Nat) : Nat := countSuspF units.length units

/-- The function `isValidUtf8` from server.js, on a decoded JS string: false when it holds
any U+FFFD replacement character, or has more than 50 characters of which the
suspicious matches exceed 2% (`suspicious / totalChars > 0.02`, stated
rationally as `100 * suspicious > 2 * totalChars`). -/
def isValidUtf8 (units : List Nat) : Bool :=
  if 0 < units.countP (fun c => c == 0xFFFD) then false
  else if units.length > 50 && 100 * countSusp units > 2 * units.length then false
  else true

/-- The library call `iconv.decode(buffer, 'utf-16le')` modelled at the code-unit level: each
little-endian byte pair is one UTF-16 code unit; a dangling odd byte is
dropped. -/
def utf16leUnits : List Nat → List Nat
  | b1 :: b2 :: rest => (b1 + 256 * b2) :: utf16leUnits rest
  | _ => []

/-- The CP1250 (Windows-1250) high half: code points for bytes 0x80..0xFF,
modelling `iconv.decode(buffer, 'win1250')`; undefined slots map to U+FFFD. -/
def win1250High : List Nat :=
  [0x20AC, 0xFFFD, 0x201A, 0xFFFD, 0x201E, 0x2026, 0x2020, 0x2021,
   0xFFFD, 0x2030, 0x0160, 0x2039, 0x015A, 0x0164, 0x017D, 0x0179,
   0xFFFD, 0x2018, 0x2019, 0x201C, 0x201D, 0x2022, 0x2013, 0x2014,
   0xFFFD, 0x2122, 0x0161, 0x203A, 0x015B, 0x0165, 0x017E, 0x017A,
   0x00A0, 0x02C7, 0x02D8, 0x0141, 0x00A4, 0x0104, 0x00A6, 0x00A7,
   0x00A8, 0x00A9, 0x015E, 0x00AB, 0x00AC, 0x00AD, 0x00AE, 0x017B,
   0x00B0, 0x00B1, 0x02DB, 0x0142, 0x00B4, 0x00B5, 0x00B6, 0x00B7,
   0x00B8, 0x0105, 0x015F, 0x00BB, 0x013D, 0x02DD, 0x013E, 0x017C,
   0x0154, 0x00C1, 0x00C2, 0x0102, 0x00C4, 0x0139, 0x0106, 0x00C7,
   0x010C, 0x00C9, 0x0118, 0x00CB, 0x011A, 0x00CD, 0x00CE, 0x010E,
   0x0110, 0x0143, 0x0147, 0x00D3, 0x00D4, 0x0150, 0x00D6, 0x00D7,
   0x0158, 0x016E, 0x00DA, 0x0170, 0x00DC, 0x00DD, 0x0162, 0x00DF,
   0x0155, 0x00E1, 0x00E2, 0x0103, 0x00E4, 0x013A, 0x0107, 0x00E7,
   0x010D, 0x00E9, 0x0119, 0x00EB, 0x011B, 0x00ED, 0x00EE, 0x010F,
   0x0111, 0x0144, 0x0148, 0x00F3, 0x00F4, 0x0151, 0x00F6, 0x00F7,
   0x0159, 0x016F, 0x00FA, 0x0171, 0x00FC, 0x00FD, 0x0163, 0x02D9]

/-- Single-byte CP1250 decoding of one byte. -/
def win1250Byte (b : Nat) : Nat :=
  if b < 0x80 then b else win1250High.getD (b - 0x80) 0xFFFD

/-- Which decoding `ensureUtf8` selects. -/
inductive DecodeChoice where
  | utf8Bom
  | utf16le
  | utf8Plain
  | cp1250
deriving DecidableEq

/-- The decoding selection of `ensureUtf8`: a UTF-8 BOM forces UTF-8; a
UTF-16LE BOM forces UTF-16LE; otherwise decode as UTF-8 unless the validity
heuristic rejects the result, in which case decode as CP1250. -/
def chooseEncoding (bytes : List Nat) : DecodeChoice :=
  if List.isPrefixOf [0xEF, 0xBB, 0xBF] bytes then .utf8Bom
  else if List.isPrefixOf [0xFF, 0xFE] bytes then .utf16le
  else if isValidUtf8 (utf8Units bytes) then .utf8Plain
  else .cp1250

/-- The function `ensureUtf8` from server.js, producing the decoded JS string (as UTF-16
code units). -/
def ensureUtf8 (bytes : List Nat) : List Nat :=
  match chooseEncoding bytes with
  | .utf8Bom => utf8Units bytes
  | .utf16le => utf16leUnits bytes
  | .utf8Plain => utf8Units bytes
  | .cp1250 => bytes.map win1250Byte

/-! ## ASS/SSA → VTT conversion (server.js, `assToVtt` and helpers) -/

/-- A captured ASS style: decoded primary colour and bold/italic flags. -/
structure AssStyle where
  color : Option String
  bold : Bool
  italic : Bool
deriving DecidableEq

/-- A parsed dialogue line: reformatted start/end timestamps and the
translated cue text. -/
structure AssDialogue where
  startT : String
  stopT : String
  text : String
deriving DecidableEq

/-- The tail of the `[V4+ Styles]` header after `[V4`:
optional `+`, whitespace, `Style`, optional `s`, `]` (case-insensitive). -/
def v4HeaderTail (rest : List Char) : Bool :=
  let r1 := match rest with
    | '+' :: t => t
    | _ => rest
  let r2 := r1.dropWhile jsIsSpace
  match dropLitCI "style" r2 with
  | some r3 =>
    let r4 := match r3 with
      | c :: t => if jsToLower c = 's' then t else r3
      | [] => r3
    match r4 with
    | c :: _ => c = ']'
    | [] => false
  | none => false

/-- JS `/^\[V4\+?\s*Styles?\]/i.test(trimmed)`. -/
def isV4StylesHeader (l : List Char) : Bool :=
  match l with
  | c0 :: c1 :: c2 :: rest =>
    c0 = '[' && jsToLower c1 = 'v' && c2 = '4' && v4HeaderTail rest
  | _ => false

/-- JS `/^\[Events\]/i.test(trimmed)`. -/
def isEventsHeader (l : List Char) : Bool := startsWithCI "[events]" l

/-- JS `/^\[/.test(trimmed)`. -/
def isBracketStart (l : List Char) : Bool :=
  match l with
  | '[' :: _ => true
  | _ => false

/-- JS `replace(/^Format:\s*/i, '').split(',').map(f => f.trim().toLowerCase())`
(also used for the styles-section `Format:` line). -/
def parseFormatFields (l : List Char) : List String :=
  let body := match dropLitCI "format:" l with
    | some r => r
    | none => l
  (splitOnC ',' (body.dropWhile jsIsSpace)).map fun f => String.mk (lowerL (jsTrim f))

/-- Drop one trailing ampersand (JS `replace(/&$/, '')`). -/
def dropTrailingAmp (l : List Char) : List Char :=
  if l.getLast? = some '&' then l.dropLast else l

/-- The function `assColorToVtt` from server.js: strip a leading `&H` and a trailing `&`;
with at least six hex digits left, reslice ASS blue/green/red order into
`#RRGGBB`; the `none` case covers the JS falsy argument and short input. -/
def assColorToVtt (assColor : Option String) : Option String :=
  match assColor with
  | none => none
  | some s =>
    if s = "" then none
    else
      let m0 := match dropLitCI "&h" s.data with
        | some r => r
        | none => s.data
      let m := dropTrailingAmp m0
      if 6 ≤ m.length then
        let n := m.length
        let b := (m.drop (n - 6)).take 2
        let g := (m.drop (n - 4)).take 2
        let r := m.drop (n - 2)
        some ("#" ++ String.mk r ++ String.mk g ++ String.mk b)
      else none

/-- Match `(\d+):(\d+):(\d+)\.(\d+)` at the head of the list, returning the
four digit groups. -/
def timeMatchAt (l : List Char) : Option (List Char × List Char × List Char × List Char) :=
  let h := l.takeWhile Char.isDigit
  if h.isEmpty then none
  else
    match l.drop h.length with
    | ':' :: r1 =>
      let m := r1.takeWhile Char.isDigit
      if m.isEmpty then none
      else
        match r1.drop m.length with
        | ':' :: r2 =>
          let s := r2.takeWhile Char.isDigit
          if s.isEmpty then none
          else
            match r2.drop s.length with
            | '.' :: r3 =>
              let cs := r3.takeWhile Char.isDigit
              if cs.isEmpty then none else some (h, m, s, cs)
            | _ => none
        | _ => none
    | _ => none

/-- First match of the timestamp pattern anywhere in the list (JS
`String.prototype.match` with an unanchored regex); fuelled. -/
def findTimeF : Nat → List Char → Option (List Char × List Char × List Char × List Char)
  | 0, _ => none
  | _ + 1, [] => none
  | n + 1, c :: cs =>
    match timeMatchAt (c :: cs) with
    | some t => some t
    | none => findTimeF n cs

/-- JS `padStart(2, '0')`. -/
def padStart2 (l : List Char) : List Char :=
  if 2 ≤ l.length then l else List.replicate (2 - l.length) '0' ++ l

/-- JS `padEnd(3, '0').substring(0, 3)`. -/
def padEnd3Take3 (l : List Char) : List Char :=
  (l ++ List.replicate (3 - l.length) '0').take 3

/-- The function `assTimeToVtt` from server.js: reformat ASS `H:MM:SS.CC` to VTT
`HH:MM:SS.mmm`, defaulting to `00:00:00.000` when no timestamp is found. -/
def assTimeToVtt (assTime : String) : String :=
  match findTimeF assTime.data.length assTime.data with
  | none => "00:00:00.000"
  | some (h, m, s, cs) =>
    String.mk (padStart2 h) ++ ":" ++ String.mk (padStart2 m) ++ ":" ++
    String.mk (padStart2 s) ++ "." ++ String.mk (padEnd3Take3 cs)

/-- Build the character list of an inline ASS override tag `{mid}`. -/
def tagLit (mid : String) : List Char := lbChar :: (mid.data ++ [rbChar])

/-- Is `c` an ASCII hex digit (JS `[0-9A-Fa-f]`)? -/
def isHexDigit (c : Char) : Bool :=
  c.isDigit || ('a' ≤ c && c ≤ 'f') || ('A' ≤ c && c ≤ 'F')

/-- Match the inline colour override `\{\\(?:1)?c&H([0-9A-Fa-f]{6})&?\}` at
the head of the list, returning the six hex digits and the remaining input. -/
def colorTagAt (l : List Char) : Option (List Char × List Char) :=
  match l with
  | c0 :: '\\' :: rest =>
    if c0 = lbChar then
      let afterC : Option (List Char) :=
        match rest with
        | '1' :: 'c' :: t => some t
        | 'c' :: t => some t
        | _ => none
      match afterC with
      | some ('&' :: 'H' :: t) =>
        let hex := t.take 6
        if hex.length = 6 && hex.all isHexDigit then
          let t2 := t.drop 6
          let t3 := match t2 with
            | '&' :: u => u
            | _ => t2
          match t3 with
          | c1 :: u => if c1 = rbChar then some (hex, u) else none
          | [] => none
        else none
      | _ => none
    else none
  | _ => none

/-- Replace every inline colour override by a `<c.color…>` span (or nothing
when the colour fails to decode), scanning left to right; fuelled. -/
def replaceColorF : Nat → List Char → List Char
  | 0, l => l
  | _ + 1, [] => []
  | n + 1, c :: cs =>
    match colorTagAt (c :: cs) with
    | some (hex, rest) =>
      (match assColorToVtt (some ("&H" ++ String.mk hex)) with
       | some col => ("<c.color" ++ col ++ ">").data
       | none => []) ++ replaceColorF n rest
    | none => c :: replaceColorF n cs

/-- Strip every remaining bracketed override tag (JS
`replace(/\{[^}]*\}/g, '')`): from an opening brace, drop through the next
closing brace; a brace with no closer stays; fuelled. -/
def stripTagsF : Nat → List Char → List Char
  | 0, l => l
  | _ + 1, [] => []
  | n + 1, c :: cs =>
    if c = lbChar then
      match cs.findIdx? (fun x => x = rbChar) with
      | some i => stripTagsF n (cs.drop (i + 1))
      | none => c :: stripTagsF n cs
    else c :: stripTagsF n cs

/-- The function `assTextToVtt` from server.js: translate bold/italic/underline tag pairs
to markup, colour overrides to colour spans, strip remaining override tags,
turn hard line breaks into newlines and the hard-space marker into a space,
apply style-level bold/italic/colour wrapping, and trim. -/
def assTextToVtt (text : String) (style : Option AssStyle) : String :=
  let r1 := replaceLit (tagLit "\\b1") "<b>".data text.data
  let r2 := replaceLit (tagLit "\\b0") "</b>".data r1
  let r3 := replaceLit (tagLit "\\i1") "<i>".data r2
  let r4 := replaceLit (tagLit "\\i0") "</i>".data r3
  let r5 := replaceLit (tagLit "\\u1") "<u>".data r4
  let r6 := replaceLit (tagLit "\\u0") "</u>".data r5
  let r7 := replaceColorF r6.length r6
  let r8 := stripTagsF r7.length r7
  let r9 := replaceLit "\\N".data "\n".data r8
  let r10 := replaceLit "\\n".data "\n".data r9
  let r11 := replaceLit "\\h".data " ".data r10
  let r12 := match style with
    | none => r11
    | some st =>
      let a := if st.bold then "<b>".data ++ r11 ++ "</b>".data else r11
      let b := if st.italic then "<i>".data ++ a ++ "</i>".data else a
      match st.color with
      | some col => ("<c.color" ++ col ++ ">").data ++ b ++ "</c>".data
      | none => b
  String.mk (jsTrim r12)

/-- Is a flag field `-1` or `1` after trimming (both mean "on")? -/
def flagOn (s : Option String) : Bool :=
  match s with
  | some v => jsTrimS v = "-1" || jsTrimS v = "1"
  | none => false

/-- Parse a `Style:` line of the styles section against the styles `Format:`
field order, yielding the style name and its captured attributes. -/
def parseStyleLine (styleFormat : List String) (l : List Char) : Option (String × AssStyle) :=
  let body := match dropLitCI "style:" l with
    | some r => r
    | none => l
  let parts := (splitOnC ',' (body.dropWhile jsIsSpace)).map String.mk
  match styleFormat.indexOf? "name" with
  | none => none
  | some nameIdx =>
    match parts.get? nameIdx with
    | none => none
    | some nm =>
      if nm = "" then none
      else
        let color := match styleFormat.indexOf? "primarycolour" with
          | some ci => assColorToVtt ((parts.get? ci).map jsTrimS)
          | none => none
        let bold := match styleFormat.indexOf? "bold" with
          | some bi => flagOn (parts.get? bi)
          | none => false
        let italic := match styleFormat.indexOf? "italic" with
          | some ii => flagOn (parts.get? ii)
          | none => false
        some (jsTrimS nm, ⟨color, bold, italic⟩)

/-- Look a style up by name (later definitions shadow earlier ones, modelling
JS object-property overwrite via the prepend in `assScan`). -/
def lookupStyle (styles : List (String × AssStyle)) (nm : String) : Option AssStyle :=
  (styles.find? fun p => p.1 == nm).map fun p => p.2

/-- Parse a `Dialogue:` line against the events `Format:` field order: split
on commas, require at least as many columns as fields, locate the Start, End
and Text fields, rejoin the text from all trailing columns, reformat the
timestamps and translate the text. -/
def parseDialogue (formatFields : List String) (styles : List (String × AssStyle))
    (l : List Char) : Option AssDialogue :=
  let body := match dropLitCI "dialogue:" l with
    | some r => r
    | none => l
  let parts := (splitOnC ',' (body.dropWhile jsIsSpace)).map String.mk
  if formatFields.length ≤ parts.length then
    match formatFields.indexOf? "start", formatFields.indexOf? "end",
          formatFields.indexOf? "text" with
    | some startIdx, some endIdx, some textIdx =>
      let textParts := String.intercalate "," (parts.drop textIdx)
      let styleName := match formatFields.indexOf? "style" with
        | some si => (parts.get? si).map jsTrimS
        | none => none
      let style := match styleName with
        | some nm => lookupStyle styles nm
        | none => none
      some { startT := assTimeToVtt (jsTrimS (parts.getD startIdx ""))
             stopT := assTimeToVtt (jsTrimS (parts.getD endIdx ""))
             text := assTextToVtt (jsTrimS textParts) style }
    | _, _, _ => none
  else none

/-- The line-scanning state of `assToVtt`. -/
structure AssScanState where
  inStyles : Bool
  inEvents : Bool
  styleFormat : List String
  formatFields : List String
  styles : List (String × AssStyle)
  dialogues : List AssDialogue
deriving DecidableEq

/-- The per-line loop of `assToVtt`, with the source's branch order: styles
header, styles `Format:`, `Style:`, events header, any other bracketed header
while in events (which stops the scan, modelling `break`), events `Format:`,
`Dialogue:`. -/
def assScan : AssScanState → List String → AssScanState
  | st, [] => st
  | st, line :: rest =>
    let t := jsTrim line.data
    if isV4StylesHeader t then
      assScan { st with inStyles := true, inEvents := false } rest
    else if st.inStyles && startsWithCI "format:" t then
      assScan { st with styleFormat := parseFormatFields t } rest
    else if st.inStyles && startsWithCI "style:" t then
      match parseStyleLine st.styleFormat t with
      | some (nm, sty) => assScan { st with styles := (nm, sty) :: st.styles } rest
      | none => assScan st rest
    else if isEventsHeader t then
      assScan { st with inEvents := true, inStyles := false } rest
    else if isBracketStart t && st.inEvents then st
    else if st.inEvents && startsWithCI "format:" t then
      assScan { st with formatFields := parseFormatFields t } rest
    else if st.inEvents && startsWithCI "dialogue:" t then
      match parseDialogue st.formatFields st.styles t with
      | some d => assScan { st with dialogues := st.dialogues ++ [d] } rest
      | none => assScan st rest
    else assScan st rest

/-- The function `assToVtt` from server.js: split into lines on `\r?\n`, scan sections, and
emit the `WEBVTT` header followed by one cue per dialogue, joined by blank
lines. -/
def assToVtt (assContent : String) : String :=
  let lines := (splitOnC '\n' (replaceCrLf assContent.data)).map String.mk
  let st := assScan ⟨false, false, [], [], [], []⟩ lines
  "WEBVTT\n\n" ++
    String.intercalate "\n"
      (st.dialogues.map fun d => d.startT ++ " --> " ++ d.stopT ++ "\n" ++ d.text ++ "\n")

/-! ## The `/sub` handler under concurrency (server.js, `downloadLocks`)

Node's event loop is single-threaded and cooperative: a request handler runs
atomically between `await` points.  The handler is therefore embedded as a
small-step machine over two concurrent requests for the *same* subtitle id,
with one transition per atomic segment (the code between two suspension
points).  A schedule (`List Bool`) picks which request advances at each step;
a request that is finished, or blocked awaiting an unresolved lock promise,
makes no move.

Modelling choices, all from the source of the route
`app.get('/sub/:config/:subId/:linkFile')`:
- both caches start empty and the durable (R2) tier always misses, so the
  download path is exercised (the scenario of the claims);
- `getClient` succeeds (login failures are out of the claims' scope);
- `client.downloadSubtitle` has one outcome per run: `ok` (non-empty file
  list), `captcha` (returns `null` — the CAPTCHA/limit path), or `err`
  (throws — the catch path).
The single cached/downloaded content needs no explicit value: a request that
ends in `doneContent` served exactly the one content produced by the single
successful download (directly or via the memory cache), so two requests both
ending in `doneContent` received identical content. -/

/-- Program counter of one `/sub` request, one value per atomic segment:
`start` = entry, memory-cache check, then suspend on `r2Get`;
`afterR2` = resumed from the (missing) R2 lookup, at the lock check;
`waitLock` = suspended on another request's lock promise;
`afterClient` = lock created, resumed from `getClient`, about to call
`downloadSubtitle`; `afterDownload` = resumed from the download; the `done…`
values are the three possible responses (content / limit message / 500). -/
inductive SubPc where
  | start
  | afterR2
  | waitLock
  | afterClient
  | afterDownload
  | doneContent
  | doneLimit
  | doneErr
deriving DecidableEq

/-- Outcome of `client.downloadSubtitle` for a run. -/
inductive FetchOutcome where
  | ok
  | captcha
  | err
deriving DecidableEq

/-- Shared state plus both requests' program counters: `cached` = the memory
cache holds the entry; `lockHeld` = `downloadLocks.has(subId)`; `lockResolved`
= the lock promise waiters hold has been resolved; `fetches` = number of
`downloadSubtitle` calls performed so far. -/
structure ServeState where
  pcA : SubPc
  pcB : SubPc
  cached : Bool
  lockHeld : Bool
  lockResolved : Bool
  fetches : Nat
  waitedA : Bool
  waitedB : Bool
deriving DecidableEq

/-- One atomic segment of a single request, given its pc and the shared
state; returns the new pc and shared state.  Each branch is read off the
route handler. -/
def subStep (o : FetchOutcome) (pc : SubPc) (s : ServeState) : SubPc × ServeState :=
  match pc with
  | .start =>
    if s.cached then (.doneContent, s) else (.afterR2, s)
  | .afterR2 =>
    if s.lockHeld then (.waitLock, s)
    else (.afterClient, { s with lockHeld := true, lockResolved := false })
  | .waitLock =>
    if s.lockResolved then
      if s.cached then (.doneContent, s)
      else (.afterClient, { s with lockHeld := true, lockResolved := false })
    else (.waitLock, s)
  | .afterClient =>
    (.afterDownload, { s with fetches := s.fetches + 1 })
  | .afterDownload =>
    match o with
    | .ok => (.doneContent, { s with cached := true, lockHeld := false, lockResolved := true })
    | .captcha => (.doneLimit, { s with lockHeld := false, lockResolved := true })
    | .err => (.doneErr, { s with lockHeld := false })
  | pcDone => (pcDone, s)

/-- Advance the request selected by the schedule bit (`true` = request A).
The `waited…` fields are ghost state recording whether the request ever
suspended on another request's lock promise (reached `waitLock`). -/
def stepServe (o : FetchOutcome) (s : ServeState) (c : Bool) : ServeState :=
  if c then
    let (pc, s1) := subStep o s.pcA s
    { s1 with pcA := pc, waitedA := s.waitedA || decide (pc = .waitLock) }
  else
    let (pc, s1) := subStep o s.pcB s
    { s1 with pcB := pc, waitedB := s.waitedB || decide (pc = .waitLock) }

/-- Run a schedule from a state. -/
def runServe (o : FetchOutcome) (s : ServeState) (sched : List Bool) : ServeState :=
  sched.foldl (stepServe o) s

/-- Initial state: both requests at entry, caches empty, no lock, no fetch. -/
def servInit : ServeState :=
  { pcA := .start, pcB := .start, cached := false,
    lockHeld := false, lockResolved := false, fetches := 0,
    waitedA := false, waitedB := false }

/-- Is the request inside the locked fetch section — between creating the
lock (just before `getClient`/`downloadSubtitle`) and sending its response?
While a request is here, its origin fetch is (or is about to be) in flight. -/
def inFlightPc : SubPc → Bool
  | .afterClient => true
  | .afterDownload => true
  | _ => false

/-- Has this request sent its response? -/
def pcFinished : SubPc → Bool
  | .doneContent => true
  | .doneLimit => true
  | .doneErr => true
  | _ => false

/-- Have both requests sent their responses? -/
def bothDone (s : ServeState) : Bool := pcFinished s.pcA && pcFinished s.pcB

/-- One breadth step of the reachable-state computation: keep the current
states and add every one-step successor, deduplicated. -/
def stepAllServe (o : FetchOutcome) (l : List ServeState) : List ServeState :=
  (l ++ l.flatMap fun s => [stepServe o s true, stepServe o s false]).dedup

/-- All states reachable from `servInit` under outcome `ok` (the iteration
count is enough to reach the closure; closedness is proved below). -/
def reachOk : List ServeState := Nat.iterate (stepAllServe .ok) 12 [servInit]

/-! ## Concrete example inputs used by the claims -/

/-- Example search oracle: candidate `Xa` yields no rows, candidate `Yb`
yields two rows.  (The spec states this example with one-character candidates
`X`/`Y`, but those fall under the very skip rule the same spec sentence
states — candidates shorter than 2 characters are never issued — so
two-character candidates are used here.) -/
def exSearchQ : String → List Nat := fun t => if t = "Yb" then [1, 2] else []

/-- The claim's ASS example document: an `[Events]` section whose `Format:`
line lists Start, End and Text fields, and one dialogue line with a bold tag
pair. -/
def assExampleDoc : String :=
  "[Events]\nFormat: Layer, Start, End, Style, Name, MarginL, MarginR, MarginV, Effect, Text\nDialogue: 0,0:00:01.00,0:00:03.00,Default,,0,0,0,,\x7b\\b1\x7dHello\x7b\\b0\x7d world"

/-- The same document with a second dialogue line whose text itself contains a
comma (exercising the rejoin of all trailing comma-separated columns). -/
def assExampleDoc2 : String :=
  "[Events]\nFormat: Layer, Start, End, Style, Name, MarginL, MarginR, MarginV, Effect, Text\nDialogue: 0,0:00:01.00,0:00:03.00,Default,,0,0,0,,\x7b\\b1\x7dHello\x7b\\b0\x7d world\nDialogue: 0,0:00:04.00,0:00:05.50,Default,,0,0,0,,Hi, there"

/-- Schedule refuting "exactly one fetch": both requests enter (steps 1-2),
request A locks, fetches and completes (steps 3-5), then request B resumes
from its R2 lookup, finds the lock already gone, and fetches again
(steps 6-8). -/
def c1CexSched : List Bool := [true, false, true, true, true, false, false, false]

/-- Schedule in which request B observes the lock held by request A, waits,
and after A completes serves the content A cached: exactly one fetch. -/
def c1WaitSched : List Bool := [true, false, true, false, true, true, false]

/-- Schedule in which request B waits on the lock of request A and the
download of A throws: A reaches the catch block (step 6), which removes the
map entry but never resolves the lock promise. -/
def c2StuckSched : List Bool := [true, false, true, false, true, true]

/-! ## Theorems -/

set_option maxRecDepth 8000

/-- The candidate cascade of `search` equals its specification: the first
candidate of length at least 2 whose query yields a non-empty result set. -/
theorem searchLoop_eq_searchSpec {α : Type} (q : String → List α) :
    ∀ titles, searchLoop q titles = searchSpec q titles := by
  intro titles
  induction titles with
  | nil => rfl
  | cons t ts ih =>
    by_cases hlen : t.length < 2
    · have h2 : ¬ (2 ≤ t.length) := by omega
      simp only [searchLoop, searchSpec, List.filter_cons] at *
      simp [hlen, h2, ih]
    · have h2 : 2 ≤ t.length := by omega
      have hne : ¬ (t = "") := by
        intro h
        subst h
        simp at hlen
      by_cases hq : (q t).isEmpty
      · simp only [searchLoop, searchSpec, List.filter_cons] at *
        simp [hlen, h2, hne, hq, ih, List.find?_cons]
      · simp only [searchLoop, searchSpec, List.filter_cons] at *
        simp [hlen, h2, hne, hq, List.find?_cons]

/-- Claim C4: for every ordered list of candidate titles, `search` returns
the parsed results of the first candidate — in list order, skipping
candidates that are empty or shorter than 2 characters — whose query yields a
non-empty result set, and the empty list when no candidate does; results of
different candidates are never merged, and login is ensured once per overall
call (the first component), not per candidate.  The second conjunct is the
spec's two-candidate example (with candidates long enough not to be
skipped): exactly the two results of the second candidate, never a merge. -/
theorem search_cascading_or :
    (∀ (α : Type) (q : String → List α) (titles : List String),
      search q titles = (1, searchSpec q titles)) ∧
    search exSearchQ ["Xa", "Yb"] = (1, [1, 2]) := by
  constructor
  · intro α q titles
    unfold search
    rw [searchLoop_eq_searchSpec]
  · decide

/-- Counterexample to claim C5 as stated: on the empty target and empty
candidate the claim's normalised characterisation accepts (both normalise to
the same empty text), but the filter rejects, because the code first rejects
any falsy (empty) argument. -/
theorem title_match_empty_cex :
    isExactTitleMatch "" "" = false ∧ titleMatchSpec "" "" = true := by decide

/-- Claim C5 (amended): for every non-empty target title and non-empty
candidate text, the title filter accepts the candidate if and only if, after
normalising both to lowercase alphanumerics and spaces, the candidate equals
the target, or the candidate starts with the target followed by nothing, a
4-digit year, or a recognised release-context token; in particular target
"iron man" matches "iron man 2008 bluray" and "iron man" but not
"iron man 2". -/
theorem title_match_characterization :
    (∀ movieName subText : String, movieName ≠ "" → subText ≠ "" →
      isExactTitleMatch movieName subText = titleMatchSpec movieName subText) ∧
    isExactTitleMatch "iron man" "iron man 2008 bluray" = true ∧
    isExactTitleMatch "iron man" "iron man" = true ∧
    isExactTitleMatch "iron man" "iron man 2" = false := by
  refine ⟨?_, by decide, by decide, by decide⟩
  intro m s hm hs
  unfold isExactTitleMatch titleMatchSpec
  rw [if_neg (by simp [hm, hs])]
  cases h1 : (normalizeTitle s == normalizeTitle m)
  · cases h2 : List.isPrefixOf (normalizeTitle m) (normalizeTitle s)
    · simp [h1, h2]
    · simp [h1, h2]
      generalize jsTrim (List.drop (normalizeTitle m).length (normalizeTitle s)) = a
      cases a <;> simp
  · simp [h1]

/-- Witness for the amended claim C5 at the spec's own example inputs. -/
theorem title_match_characterization_witness :
    isExactTitleMatch "iron man" "iron man 2008 bluray" =
      titleMatchSpec "iron man" "iron man 2008 bluray" :=
  title_match_characterization.1 "iron man" "iron man 2008 bluray"
    (by decide) (by decide)

/-- Claim C6: a call to `login()` returns true without any network login
exactly when the session is flagged logged-in and the last successful login
was under 30 minutes ago; otherwise, when an attempt is in flight the caller
joins (awaits) that same attempt, and when none is, a new (forced) attempt is
started. -/
theorem login_freshness_policy (s : LoginState) (now : Int) :
    (loginAction s now = .skipFresh ↔
      s.loggedIn = true ∧ now - s.lastLoginTime < 30 * 60 * 1000) ∧
    (sessionFresh s now = false → s.inFlight = true →
      loginAction s now = .joinInFlight) ∧
    (sessionFresh s now = false → s.inFlight = false →
      loginAction s now = .newAttempt) := by
  refine ⟨?_, ?_, ?_⟩
  · unfold loginAction
    cases hF : sessionFresh s now
    · unfold sessionFresh at hF
      simp at hF
      by_cases hI : s.inFlight = true <;> simp [hI] <;> intro h <;> exact hF h
    · unfold sessionFresh at hF
      simp at hF
      simp [hF]
  · intro hF hI
    simp [loginAction, hF, hI]
  · intro hF hI
    simp [loginAction, hF, hI]

/-- Witness for claim C6: a stale session with an in-flight attempt joins the
existing attempt. -/
theorem login_freshness_policy_witness :
    loginAction ⟨false, 0, true⟩ 0 = .joinInFlight :=
  (login_freshness_policy ⟨false, 0, true⟩ 0).2.1 (by decide) (by decide)

/-- Claim C3: whenever the download pipeline returns null or an empty file
list, the `/sub` response is the fixed "limit reached" cue — served with the
VTT content type and a `WEBVTT` header in the Omni serving context, otherwise
as a plain SRT-style cue — and it is an HTTP 200 payload, not an error. -/
theorem limit_cue_on_no_files (isOmni : Bool) (files : Option (List ExtractedFile))
    (h : files = none ∨ files = some []) :
    afterDownload isOmni files = limitResponse isOmni ∧
    limitResponse isOmni =
      .ok (if isOmni then "text/vtt; charset=utf-8" else "text/plain; charset=utf-8")
        (limitMessage isOmni) ∧
    List.isPrefixOf "WEBVTT\n\n1\n00:00:01.000 --> 00:00:30.000\n".data
      (limitMessage true).data = true ∧
    List.isPrefixOf "1\n00:00:01,000 --> 00:00:30,000\n".data
      (limitMessage false).data = true := by
  rcases h with h | h <;> subst h <;> exact ⟨rfl, rfl, by decide, by decide⟩

/-- Witness for claim C3 at a null pipeline result in the Omni context. -/
theorem limit_cue_on_no_files_witness :
    afterDownload true none = limitResponse true :=
  (limit_cue_on_no_files true none (Or.inl rfl)).1

/-- Fully fuelled UTF-8 decoding of an all-ASCII byte list is the identity. -/
theorem utf8DecodeF_ascii :
    ∀ (n : Nat) (bytes : List Nat), bytes.length ≤ n →
      (∀ b ∈ bytes, b < 0x80) → utf8DecodeF n bytes = bytes := by
  intro n
  induction n with
  | zero =>
    intro bytes hlen _
    cases bytes with
    | nil => rfl
    | cons b bs => simp at hlen
  | succ n ih =>
    intro bytes hlen hall
    cases bytes with
    | nil => rfl
    | cons b bs =>
      have hb : b < 0x80 := hall b (List.mem_cons_self b bs)
      simp only [utf8DecodeF, if_pos hb]
      have : utf8DecodeF n bs = bs := by
        refine ih bs ?_ ?_
        · simpa using hlen
        · intro x hx
          exact hall x (List.mem_cons_of_mem b hx)
      rw [this]

/-- UTF-8 decoding of an all-ASCII byte list is the identity. -/
theorem utf8Decode_ascii (bytes : List Nat) (h : ∀ b ∈ bytes, b < 0x80) :
    utf8Decode bytes = bytes :=
  utf8DecodeF_ascii bytes.length bytes le_rfl h

/-- Code points below the astral plane are their own UTF-16 encoding. -/
theorem toUtf16_small :
    ∀ (l : List Nat), (∀ c ∈ l, c < 0x10000) → toUtf16 l = l := by
  intro l
  induction l with
  | nil => intro _; rfl
  | cons c cs ih =>
    intro h
    have hc : c < 0x10000 := h c (List.mem_cons_self c cs)
    simp only [toUtf16, List.flatMap_cons, if_pos hc]
    have := ih fun x hx => h x (List.mem_cons_of_mem c hx)
    simp only [toUtf16] at this
    rw [this]
    rfl

/-- A string with no characters in the 0xC0 range has no suspicious matches. -/
theorem countSuspF_small :
    ∀ (n : Nat) (l : List Nat), (∀ c ∈ l, c < 0xC0) → countSuspF n l = 0 := by
  intro n
  induction n with
  | zero => intro l _; rfl
  | succ n ih =>
    intro l hall
    match l with
    | [] => rfl
    | [x] => rfl
    | c1 :: c2 :: rest =>
      have h1 : c1 < 0xC0 := hall c1 (by simp)
      have hcond : ¬ ((0xC0 ≤ c1 && c1 ≤ 0xC3) && (0x80 ≤ c2 && c2 ≤ 0xBF)) = true := by
        simp
        intro ha
        omega
      simp only [countSuspF, if_neg hcond]
      exact ih (c2 :: rest) fun x hx => hall x (by simp at hx ⊢; tauto)

/-- The validity heuristic accepts every all-ASCII string. -/
theorem isValidUtf8_ascii (units : List Nat) (h : ∀ c ∈ units, c < 0x80) :
    isValidUtf8 units = true := by
  have hcount : units.countP (fun c => c == 0xFFFD) = 0 := by
    rw [List.countP_eq_zero]
    intro a ha
    have := h a ha
    simp
    omega
  have hsusp : countSusp units = 0 :=
    countSuspF_small units.length units fun c hc => by have := h c hc; omega
  simp [isValidUtf8, hcount, hsusp]

/-- An all-ASCII byte list does not start with the UTF-8 byte-order mark. -/
theorem no_utf8bom_of_ascii (bytes : List Nat) (h : ∀ b ∈ bytes, b < 0x80) :
    List.isPrefixOf [0xEF, 0xBB, 0xBF] bytes = false := by
  cases bytes with
  | nil => rfl
  | cons b bs =>
    have hb : b < 0x80 := h b (List.mem_cons_self b bs)
    simp [List.isPrefixOf]
    intro heq
    omega

/-- An all-ASCII byte list does not start with the UTF-16LE byte-order mark. -/
theorem no_utf16bom_of_ascii (bytes : List Nat) (h : ∀ b ∈ bytes, b < 0x80) :
    List.isPrefixOf [0xFF, 0xFE] bytes = false := by
  cases bytes with
  | nil => rfl
  | cons b bs =>
    have hb : b < 0x80 := h b (List.mem_cons_self b bs)
    simp [List.isPrefixOf]
    intro heq
    omega

/-- Claim C7: the decoding selection of `ensureUtf8` — a leading UTF-8 BOM
forces UTF-8; a leading UTF-16LE BOM forces UTF-16LE; otherwise bytes are
decoded as UTF-8 exactly when the validity heuristic accepts the decoded
text, and as CP1250 when it rejects; the heuristic rejects precisely when the
decoded text contains a replacement character, or has more than 50 characters
of which the suspicious mis-decoded accented-letter matches exceed 2%; and
all-ASCII byte content decodes unchanged as UTF-8. -/
theorem ensureUtf8_selection :
    (∀ bytes : List Nat, List.isPrefixOf [0xEF, 0xBB, 0xBF] bytes = true →
      chooseEncoding bytes = .utf8Bom ∧ ensureUtf8 bytes = utf8Units bytes) ∧
    (∀ bytes : List Nat, List.isPrefixOf [0xEF, 0xBB, 0xBF] bytes = false →
      List.isPrefixOf [0xFF, 0xFE] bytes = true →
      chooseEncoding bytes = .utf16le ∧ ensureUtf8 bytes = utf16leUnits bytes) ∧
    (∀ bytes : List Nat, List.isPrefixOf [0xEF, 0xBB, 0xBF] bytes = false →
      List.isPrefixOf [0xFF, 0xFE] bytes = false →
      (isValidUtf8 (utf8Units bytes) = true →
        chooseEncoding bytes = .utf8Plain ∧ ensureUtf8 bytes = utf8Units bytes) ∧
      (isValidUtf8 (utf8Units bytes) = false →
        chooseEncoding bytes = .cp1250 ∧ ensureUtf8 bytes = bytes.map win1250Byte)) ∧
    (∀ units : List Nat, isValidUtf8 units = true ↔
      units.countP (fun c => c == 0xFFFD) = 0 ∧
      ¬(50 < units.length ∧ 2 * units.length < 100 * countSusp units)) ∧
    (∀ bytes : List Nat, (∀ b ∈ bytes, b < 0x80) → ensureUtf8 bytes = bytes) := by
  refine ⟨?_, ?_, ?_, ?_, ?_⟩
  · intro bytes h
    constructor <;> simp [chooseEncoding, ensureUtf8, h]
  · intro bytes h1 h2
    constructor <;> simp [chooseEncoding, ensureUtf8, h1, h2]
  · intro bytes h1 h2
    constructor <;> intro hv <;> constructor <;>
      simp [chooseEncoding, ensureUtf8, h1, h2, hv]
  · intro units
    unfold isValidUtf8
    rcases Nat.eq_zero_or_pos (units.countP (fun c => c == 0xFFFD)) with h0 | hpos
    · rw [if_neg (by omega)]
      by_cases hbig : (units.length > 50 && 100 * countSusp units > 2 * units.length) = true
      · rw [if_pos hbig]
        simp only [Bool.and_eq_true, decide_eq_true_eq] at hbig
        simp [h0]
        omega
      · rw [if_neg hbig]
        simp only [Bool.and_eq_true, decide_eq_true_eq, not_and] at hbig
        simp [h0]
        omega
    · rw [if_pos hpos]
      refine iff_of_false (by simp) ?_
      rintro ⟨h0, -⟩
      omega
  · intro bytes h
    have hdec : utf8Units bytes = bytes := by
      unfold utf8Units
      rw [utf8Decode_ascii bytes h]
      exact toUtf16_small bytes fun c hc => by have := h c hc; omega
    unfold ensureUtf8 chooseEncoding
    rw [no_utf8bom_of_ascii bytes h, no_utf16bom_of_ascii bytes h]
    simp only [Bool.false_eq_true, if_false]
    rw [hdec, isValidUtf8_ascii bytes h]
    simp

/-- Witness for claim C7: the plain-ASCII bytes of "Hi!" decode unchanged. -/
theorem ensureUtf8_selection_witness : ensureUtf8 [72, 105, 33] = [72, 105, 33] :=
  ensureUtf8_selection.2.2.2.2 [72, 105, 33] (by decide)

/-- Claim C8: `srtToVtt` on the spec's example input yields exactly the
spec's example output, and the CRLF variant of the same input yields the same
output (line endings are normalised, comma timestamps become dot timestamps,
and the WEBVTT header is prefixed). -/
theorem srtToVtt_example :
    srtToVtt "1\n00:00:01,000 --> 00:00:02,500\nHello\n" =
      "WEBVTT\n\n1\n00:00:01.000 --> 00:00:02.500\nHello\n" ∧
    srtToVtt "1\r\n00:00:01,000 --> 00:00:02,500\r\nHello\r\n" =
      "WEBVTT\n\n1\n00:00:01.000 --> 00:00:02.500\nHello\n" := by
  exact ⟨by decide, by decide⟩

/-- Claim C9: converting the ASS document whose Events Format line lists
Start, End and Text and whose dialogue line is
`Dialogue: 0,0:00:01.00,0:00:03.00,Default,,0,0,0,,{\b1}Hello{\b0} world`
yields the single cue with start 00:00:01.000, end 00:00:03.000 and text
`<b>Hello</b> world`; a second dialogue line whose text contains a comma is
rejoined from all trailing comma-separated columns. -/
theorem assToVtt_example :
    assToVtt assExampleDoc =
      "WEBVTT\n\n00:00:01.000 --> 00:00:03.000\n<b>Hello</b> world\n" ∧
    assToVtt assExampleDoc2 =
      "WEBVTT\n\n00:00:01.000 --> 00:00:03.000\n<b>Hello</b> world\n\n00:00:04.000 --> 00:00:05.500\nHi, there\n" := by
  exact ⟨by decide, by decide⟩

/-- Prepending through a fold is reversing, mapping and appending. -/
theorem foldl_cons_eq_reverse_map {β γ : Type} (f : β → γ) :
    ∀ (l : List β) (init : List γ),
      l.foldl (fun acc b => f b :: acc) init = (l.map f).reverse ++ init := by
  intro l
  induction l with
  | nil => intro init; rfl
  | cons b bs ih =>
    intro init
    simp only [List.foldl_cons, List.map_cons, List.reverse_cons, ih]
    simp

/-- Claim C10: the subtitles listing includes at most 10 site-search results
(the ranked list is truncated to its first 10 entries), while user-uploaded
custom subtitles are prepended to the front of the list and are not counted
against this cap: the response is exactly the custom entries (in reverse
upload-iteration order, from the repeated unshift) followed by the first 10
site entries, and its length is the number of custom entries plus at most
10. -/
theorem listing_cap :
    (∀ (α β γ : Type) (site : α → γ) (cust : β → γ) (scored : List α) (custom : List β),
      buildSubtitleEntries site cust scored custom =
        (custom.map cust).reverse ++ (scored.take 10).map site) ∧
    (∀ (α γ : Type) (site : α → γ) (scored : List α),
      ((scored.take 10).map site).length ≤ 10) ∧
    (∀ (α β γ : Type) (site : α → γ) (cust : β → γ) (scored : List α) (custom : List β),
      (buildSubtitleEntries site cust scored custom).length =
        custom.length + min 10 scored.length) := by
  refine ⟨?_, ?_, ?_⟩
  · intro α β γ site cust scored custom
    unfold buildSubtitleEntries
    exact foldl_cons_eq_reverse_map cust custom ((scored.take 10).map site)
  · intro α γ site scored
    simp [List.length_map, List.length_take]
  · intro α β γ site cust scored custom
    unfold buildSubtitleEntries
    rw [foldl_cons_eq_reverse_map cust custom ((scored.take 10).map site)]
    simp [List.length_append, List.length_reverse, List.length_map, List.length_take]

/-- The initial two-request state is reachable. -/
theorem reachOk_init : servInit ∈ reachOk := by decide

/-- The reachable-state list is closed under steps (success outcome). -/
theorem reachOk_closed : ∀ s ∈ reachOk, ∀ c, stepServe .ok s c ∈ reachOk := by decide

/-- Invariants of every reachable state under a succeeding download: the two
requests are never simultaneously inside the locked fetch section; when both
have responded, both served the subtitle content and between one and two
fetches happened; and when either request actually waited on the lock,
exactly one fetch happened. -/
theorem reachOk_inv : ∀ s ∈ reachOk,
    (inFlightPc s.pcA && inFlightPc s.pcB) = false ∧
    (bothDone s = true →
      s.pcA = .doneContent ∧ s.pcB = .doneContent ∧ 1 ≤ s.fetches ∧ s.fetches ≤ 2) ∧
    (bothDone s = true → (s.waitedA || s.waitedB) = true → s.fetches = 1) := by decide

/-- Any schedule keeps the machine inside the reachable-state list. -/
theorem runServe_mem_reachOk :
    ∀ (sched : List Bool) (s : ServeState), s ∈ reachOk → runServe .ok s sched ∈ reachOk := by
  intro sched
  induction sched with
  | nil => intro s hs; exact hs
  | cons c cs ih => intro s hs; exact ih _ (reachOk_closed s hs c)

/-- Claim C1 (amended): for two concurrent `/sub` requests for the same id
over empty caches with succeeding downloads, under every interleaving: at
most one origin fetch is ever in flight at a time; when both requests have
responded, both received the subtitle content (hence identical content) and
at most two — serialized — fetches were performed; and whenever either
request actually waited on the per-id download lock, the wait-then-recheck
path served it from the cache and exactly one origin fetch was performed in
total. -/
theorem serve_single_flight (sched : List Bool) :
    (inFlightPc (runServe .ok servInit sched).pcA &&
      inFlightPc (runServe .ok servInit sched).pcB) = false ∧
    (bothDone (runServe .ok servInit sched) = true →
      (runServe .ok servInit sched).pcA = .doneContent ∧
      (runServe .ok servInit sched).pcB = .doneContent ∧
      1 ≤ (runServe .ok servInit sched).fetches ∧
      (runServe .ok servInit sched).fetches ≤ 2) ∧
    (bothDone (runServe .ok servInit sched) = true →
      ((runServe .ok servInit sched).waitedA ||
        (runServe .ok servInit sched).waitedB) = true →
      (runServe .ok servInit sched).fetches = 1) :=
  reachOk_inv (runServe .ok servInit sched)
    (runServe_mem_reachOk sched servInit reachOk_init)

/-- Witness for the amended claim C1: on the schedule where request B
observes the held lock, both requests complete, B waited, and exactly one
fetch was performed. -/
theorem serve_single_flight_witness :
    bothDone (runServe .ok servInit c1WaitSched) = true ∧
    ((runServe .ok servInit c1WaitSched).waitedA ||
      (runServe .ok servInit c1WaitSched).waitedB) = true ∧
    (runServe .ok servInit c1WaitSched).fetches = 1 :=
  ⟨by decide, by decide,
    (serve_single_flight c1WaitSched).2.2 (by decide) (by decide)⟩

/-- Counterexample to claim C1 as stated: two concurrent requests (both are
already past their cache checks after the first two steps, before either has
answered) can perform TWO origin fetches even though every download
succeeds — request B resumes from its durable-cache lookup only after
request A has already completed and deleted the lock entry, so B finds no
lock to wait on and downloads again. -/
theorem serve_double_fetch_cex :
    (runServe .ok servInit [true, false]).pcA = .afterR2 ∧
    (runServe .ok servInit [true, false]).pcB = .afterR2 ∧
    bothDone (runServe .ok servInit c1CexSched) = true ∧
    (runServe .ok servInit c1CexSched).pcA = .doneContent ∧
    (runServe .ok servInit c1CexSched).pcB = .doneContent ∧
    (runServe .ok servInit c1CexSched).fetches = 2 :=
  ⟨by decide, by decide, by decide, by decide, by decide, by decide⟩

/-- After the throwing run, no further step changes the state. -/
theorem stepServe_err_stuck :
    ∀ c, stepServe .err (runServe .err servInit c2StuckSched) c =
      runServe .err servInit c2StuckSched := by decide

/-- After the throwing run, no further schedule changes the state. -/
theorem runServe_err_stuck_fix :
    ∀ extra, runServe .err (runServe .err servInit c2StuckSched) extra =
      runServe .err servInit c2StuckSched := by
  intro extra
  induction extra with
  | nil => rfl
  | cons c cs ih =>
    show runServe .err (stepServe .err _ c) cs = _
    rw [stepServe_err_stuck c]
    exact ih

/-- Claim C2 is right and the code is wrong: when the download of request A
throws while request B awaits the per-id lock promise, the catch block
removes the `downloadLocks` map entry but never resolves the shared promise
(the code binds it to an unused variable under the comment saying it releases
the lock), so request B stays suspended at its await forever — under every
continuation schedule B remains at `waitLock`, with the map entry removed
and the promise unresolved, and the two requests never both complete. -/
theorem serve_lock_unreleased_on_throw (extra : List Bool) :
    (runServe .err servInit c2StuckSched).pcA = .doneErr ∧
    (runServe .err servInit c2StuckSched).waitedB = true ∧
    (runServe .err servInit (c2StuckSched ++ extra)).pcB = .waitLock ∧
    (runServe .err servInit (c2StuckSched ++ extra)).lockHeld = false ∧
    (runServe .err servInit (c2StuckSched ++ extra)).lockResolved = false ∧
    bothDone (runServe .err servInit (c2StuckSched ++ extra)) = false := by
  have hsplit : runServe .err servInit (c2StuckSched ++ extra) =
      runServe .err (runServe .err servInit c2StuckSched) extra := by
    simp [runServe, List.foldl_append]
  rw [hsplit, runServe_err_stuck_fix]
  exact ⟨by decide, by decide, by decide, by decide, by decide, by decide⟩
